import Mathlib

/-!
Verification of the Dyoraireal backend core against its specification.

The development shallowly embeds the two core components:
* the keyword-based task router (`agent_selector.py`: `AgentSelector.analyze_task`,
  `select_best_agent`, `get_agent_suggestions`), and
* the connection hub (`real_backend_fixed.py`: `safe_send_to_client`,
  `broadcast_to_clients`, `websocket_endpoint`; `main.py`:
  `ConnectionManager.disconnect`, `websocket_endpoint`), together with the
  request coordinator (`real_backend_fixed.py`: `chat_endpoint`).

Python floats are modelled as exact rationals (all literals involved are
small decimal constants), Python strings as Lean `String` with `Char.toLower`
standing for `str.lower` (the catalog keywords and all inputs considered are
ASCII), and Python exceptions as `Except` / explicit outcome types.
-/

namespace DyorAI

/-- Models Python's substring test `pat in hay` on lists of characters:
true iff `pat` occurs contiguously inside `hay` (the empty pattern matches). -/
def isSubstrOf (pat : List Char) : List Char → Bool
  | [] => pat.isEmpty
  | a :: rest => pat.isPrefixOf (a :: rest) || isSubstrOf pat rest

/-- Models the Python expression `keyword in task_lower` from
`agent_selector.py` line 94 (`str.__contains__`). -/
def strContains (hay pat : String) : Bool :=
  isSubstrOf pat.data hay.data

/-- Models Python's `str.lower()` (`agent_selector.py` line 85) as a
character-wise lower-casing; coincides with it on the ASCII texts the
catalog uses. -/
def pyLower (s : String) : String :=
  ⟨s.data.map Char.toLower⟩

/-- Models Python's `str.strip()` (`agent_selector.py` line 97): removes
leading and trailing whitespace. -/
def pyStrip (s : String) : String :=
  ⟨((s.data.dropWhile Char.isWhitespace).reverse.dropWhile
      Char.isWhitespace).reverse⟩

/-- The `AgentCapability` dataclass from `agent_selector.py` lines 11-17. -/
structure AgentCapability where
  name : String
  keywords : List String
  description : String
  priority_score : ℕ
deriving DecidableEq

/-- The `"manus"` entry of `AgentSelector.__init__`'s catalog
(`agent_selector.py` lines 24-33). -/
def manusCapability : AgentCapability :=
  ⟨"manus",
   ["general", "help", "assist", "explain", "overview", "summary",
    "guide", "tutorial", "basic", "simple", "question", "what",
    "how", "why", "tell me", "describe", "general purpose"],
   "General-purpose AI agent for basic tasks and explanations", 1⟩

/-- The `"browser"` entry of the catalog (`agent_selector.py` lines 34-45). -/
def browserCapability : AgentCapability :=
  ⟨"browser",
   ["website", "web", "scrape", "scraping", "crawl", "extract",
    "browser", "navigate", "click", "form", "automation",
    "selenium", "url", "link", "page", "html", "css", "xpath",
    "download", "upload", "login", "submit", "search online",
    "visit", "open", "browse", "internet", "online"],
   "Web automation and scraping specialist", 3⟩

/-- The `"data"` entry of the catalog (`agent_selector.py` lines 46-58). -/
def dataCapability : AgentCapability :=
  ⟨"data",
   ["data", "analyze", "analysis", "statistics", "chart", "graph",
    "visualization", "plot", "pandas", "numpy", "csv", "excel",
    "database", "sql", "query", "report", "insights", "trends",
    "correlation", "regression", "machine learning", "ml",
    "dataset", "dataframe", "pivot", "aggregate", "clean",
    "process", "transform", "filter", "sort", "group"],
   "Data analysis and visualization expert", 3⟩

/-- The `"swe"` entry of the catalog (`agent_selector.py` lines 59-72). -/
def sweCapability : AgentCapability :=
  ⟨"swe",
   ["code", "programming", "script", "function", "class", "module",
    "python", "javascript", "java", "c++", "development", "build",
    "create", "implement", "algorithm", "software", "application",
    "api", "framework", "library", "package", "install", "setup",
    "debug", "fix", "error", "bug", "test", "unit test",
    "refactor", "optimize", "performance", "architecture",
    "design pattern", "oop", "functional", "git", "version control"],
   "Software engineering and development agent", 3⟩

/-- Models `AgentSelector.agents`: the insertion-ordered dict of the four handler
profiles (`agent_selector.py` lines 23-73), modelled as an association list
in the declared iteration order. -/
def agentsList : List (String × AgentCapability) :=
  [("manus", manusCapability), ("browser", browserCapability),
   ("data", dataCapability), ("swe", sweCapability)]

/-- The inner keyword loop of `AgentSelector.analyze_task`
(`agent_selector.py` lines 89-100): one left fold accumulating the raw
score and the match counter exactly as the Python `for` loop does. -/
def scoreLoop (task_lower : String) (keywords : List String) : ℚ × ℕ :=
  keywords.foldl
    (fun acc keyword =>
      if strContains task_lower keyword then
        (acc.1 + (if keyword = pyStrip task_lower then 2 else 1), acc.2 + 1)
      else acc)
    (0, 0)

/-- The per-handler raw score of `AgentSelector.analyze_task`
(`agent_selector.py` lines 89-107): keyword loop, then multiplication by
`priority_score`, then the multi-match bonus `1 + (matches - 1) * 0.2`
applied only when more than one keyword matched. -/
def rawScore (agent : AgentCapability) (task : String) : ℚ :=
  let task_lower := pyLower task
  let p := scoreLoop task_lower agent.keywords
  let score := p.1 * (agent.priority_score : ℚ)
  if 1 < p.2 then score * (1 + ((p.2 : ℚ) - 1) * (2 / 10)) else score

/-- The `scores` dict of `analyze_task` before normalization
(`agent_selector.py` lines 86-109), in catalog order. -/
def rawScores (task : String) : List (String × ℚ) :=
  agentsList.map (fun p => (p.1, rawScore p.2 task))

/-- Models `max(scores.values()) if scores.values() else 1`
(`agent_selector.py` line 112). -/
def valuesMax : List ℚ → ℚ
  | [] => 1
  | x :: xs => xs.foldl max x

/-- Models `AgentSelector.analyze_task` (`agent_selector.py` lines 75-116):
raw scores, then division of every entry by the maximum when that
maximum is positive. -/
def analyze_task (task : String) : List (String × ℚ) :=
  let scores := rawScores task
  let max_score := valuesMax (scores.map Prod.snd)
  if 0 < max_score then scores.map (fun p => (p.1, p.2 / max_score)) else scores

/-- Models Python's `max(scores.keys(), key=lambda k: scores[k])`
(`agent_selector.py` line 132): the first entry attaining the maximal
value wins (`max` only replaces on strict improvement). -/
def argmaxFirst : List (String × ℚ) → String × ℚ
  | [] => ("", 0)
  | x :: xs => xs.foldl (fun best p => if best.2 < p.2 then p else best) x

/-- Models `AgentSelector.select_best_agent` (`agent_selector.py` lines 118-139).
The Python default for `threshold` is `0.3`. -/
def select_best_agent (task : String) (threshold : ℚ) :
    String × ℚ × List (String × ℚ) :=
  let scores := analyze_task task
  let best := argmaxFirst scores
  if best.2 < threshold then ("manus", best.2, scores)
  else (best.1, best.2, scores)

/-- Models `self.agents[agent_name].description` (`agent_selector.py`
lines 159-160) as a catalog lookup. -/
def agentDescription (agent_name : String) : String :=
  match agentsList.lookup agent_name with
  | some a => a.description
  | none => ""

/-- The comparison used by `sorted(scores.items(), key=lambda x: x[1],
reverse=True)` (`agent_selector.py` line 155): non-increasing by value. -/
def sortRel (a b : String × ℚ) : Prop := b.2 ≤ a.2

instance : DecidableRel sortRel := fun a b => inferInstanceAs (Decidable (b.2 ≤ a.2))

instance : IsTotal (String × ℚ) sortRel := ⟨fun a b => le_total b.2 a.2⟩

instance : IsTrans (String × ℚ) sortRel :=
  ⟨fun _ _ _ h1 h2 => le_trans h2 h1⟩

/-- Models `AgentSelector.get_agent_suggestions` (`agent_selector.py` lines
141-162): stable sort of the confidence distribution in descending order
of value (Python's `sorted` is stable; modelled by the stable
`List.insertionSort`), truncation to `top_n`, and pairing each entry with
its catalog description. -/
def get_agent_suggestions (task : String) (top_n : ℕ) :
    List (String × ℚ × String) :=
  let scores := analyze_task task
  let sorted_agents := List.insertionSort sortRel scores
  (sorted_agents.take top_n).map (fun p => (p.1, p.2, agentDescription p.1))

/-- The raw-score formula as worded by the specification (§4.1 steps 2-4):
sum over the profile's keywords occurring in the lower-cased input of
+2.0 for a keyword equal to the entire trimmed input and +1.0 otherwise,
multiplied by the priority weight, then by `1 + 0.2 × (matchCount − 1)`
when more than one keyword matched. Stated separately from `rawScore`
(which is translated from the code) so the two can be compared. -/
def specRawScore (agent : AgentCapability) (task : String) : ℚ :=
  let task_lower := pyLower task
  let base := (agent.keywords.map (fun keyword =>
      if strContains task_lower keyword then
        (if keyword = pyStrip task_lower then (2 : ℚ) else 1) else 0)).sum
  let matchCount := agent.keywords.countP (fun keyword => strContains task_lower keyword)
  let weighted := base * (agent.priority_score : ℚ)
  if 1 < matchCount then weighted * (1 + ((matchCount : ℚ) - 1) * (2 / 10))
  else weighted

/-- Position of a handler identifier in the catalog's declared iteration
order (`manus`, `browser`, `data`, `swe`). -/
def catalogIndex (agent_name : String) : ℕ :=
  (agentsList.map Prod.fst).indexOf agent_name

/-- A live real-time session as the hub sees it: the opaque transport is
reduced to its one observable property, whether a send on it succeeds.
Models a `WebSocket` element of `connected_clients`
(`real_backend_fixed.py` line 48) / `active_connections` (`main.py`
line 118). -/
structure WSClient where
  id : ℕ
  alive : Bool
deriving DecidableEq

/-- Models `websocket.send_text`: raises (here: returns `Except.error`)
exactly when the transport is closed. -/
def send_text (c : WSClient) (message : String) : Except String Unit :=
  if c.alive then Except.ok () else Except.error "WebSocketDisconnect"

/-- Models `safe_send_to_client` (`real_backend_fixed.py` lines 106-116): wraps
the send in a try/except that converts both `WebSocketDisconnect` and any
other exception into a `False` return value, so it is a total Boolean
function and never raises to its caller. -/
def safe_send_to_client (c : WSClient) (message : String) : Bool :=
  match send_text c message with
  | Except.ok _ => true
  | Except.error _ => false

/-- Models `broadcast_to_clients` (`real_backend_fixed.py` lines 118-133).
First loop: one `safe_send_to_client` attempt per client of the current
list, collecting the failures into `disconnected` (returned here as the
attempt trace, first component). Second loop, run only after the first is
complete: `if client in connected_clients: connected_clients.remove(client)`
for each failure (second component, the updated client list). -/
def broadcast_to_clients (clients : List WSClient) (message : String) :
    List (WSClient × Bool) × List WSClient :=
  let attempts := clients.map (fun c => (c, safe_send_to_client c message))
  let disconnected := (attempts.filter (fun p => !p.2)).map Prod.fst
  let remaining := disconnected.foldl
    (fun cs c => if cs.contains c then cs.erase c else cs) clients
  (attempts, remaining)

/-- Models `ConnectionManager.disconnect` (`main.py` lines 125-128):
`if websocket in self.active_connections: self.active_connections.remove(websocket)`. -/
def ConnectionManager.disconnect (conns : List WSClient) (ws : WSClient) :
    List WSClient :=
  if conns.contains ws then conns.erase ws else conns

/-- Observable outcome of one iteration of the per-session read loop of
`websocket_endpoint` (`main.py` lines 260-275). -/
inductive WSLoopOutcome where
  /-- A reply of the given type is sent to this session only. -/
  | reply (response_type : String)
  /-- The message is dropped; the loop continues with the next message. -/
  | ignored
  /-- An exception escaped the `while` loop; the outer handler logs it and
  calls `manager.disconnect(websocket)`, ending the session. -/
  | terminated
deriving DecidableEq

/-- One iteration of the read loop of `websocket_endpoint` (`main.py`
lines 260-269). `parseMessage` abstracts `json.loads(data)` followed by
`message_data.get("type")`: `none` models `json.loads` raising on a
payload that is not well-formed JSON, `some t` a parsed object whose
`"type"` field is `t` (`none` inside when the field is absent). A raise
propagates out of the `while` loop to the `except` handlers, which
disconnect the session. -/
def websocket_handle_message (parseMessage : String → Option (Option String))
    (data : String) : WSLoopOutcome :=
  match parseMessage data with
  | none => WSLoopOutcome.terminated
  | some t =>
      if t = some "ping" then WSLoopOutcome.reply "pong" else WSLoopOutcome.ignored

/-- The result payload built by `get_llm_response`
(`real_backend_fixed.py` lines 135-174). -/
structure LLMResult where
  response : String
  agent : String
  tools_used : List String
  error : Bool
deriving DecidableEq

/-- Models `AGENT_CONFIGS[agent_type]["tools"]` with the `.get` fallback to the
`"manus"` config (`real_backend_fixed.py` lines 52-104 and 138). -/
def agentConfigTools (agent_type : String) : List String :=
  if agent_type = "manus" then
    ["General Knowledge", "Problem Solving", "Guidance"]
  else if agent_type = "browser" then
    ["Browser Tool", "Web Scraping", "DOM Navigation", "API Integration"]
  else if agent_type = "data" then
    ["Python Execute", "Data Visualization", "Statistical Analysis", "Machine Learning"]
  else if agent_type = "swe" then
    ["Code Editor", "Debugging", "Testing", "Version Control"]
  else
    ["General Knowledge", "Problem Solving", "Guidance"]

/-- Models `get_llm_response` (`real_backend_fixed.py` lines 135-174). The
external LLM call is abstracted as its outcome `llmOutcome`; the
function's own try/except converts a raising collaborator into an
error-flagged payload (`"Sorry, I encountered an error: ..."`,
`error: True`) instead of propagating the exception. -/
def get_llm_response (llmOutcome : Except String String) (agent_type : String) :
    LLMResult :=
  match llmOutcome with
  | Except.ok text => ⟨text, agent_type, agentConfigTools agent_type, false⟩
  | Except.error e => ⟨"Sorry, I encountered an error: " ++ e, agent_type, [], true⟩

/-- The `ChatMessage` request model (`real_backend_fixed.py` lines 39-42);
the Python defaults are `agent_type="auto"`, `auto_select=True`. -/
structure ChatMessage where
  message : String
  agent_type : String
  auto_select : Bool

/-- The events `chat_endpoint` hands to `broadcast_to_clients`, by type
tag (`real_backend_fixed.py` lines 300-344). -/
inductive BroadcastEvent where
  | agent_selection (selected_agent : String) (confidence : ℚ)
  | agent_status (agent : String) (status : String) (auto_selected : Bool)
  | agent_response (response : LLMResult)
  | agent_error (agent : String) (error : String)
deriving DecidableEq

/-- Boolean recognizer for the `agent_error` event tag. -/
def BroadcastEvent.isAgentError : BroadcastEvent → Bool
  | BroadcastEvent.agent_error _ _ => true
  | _ => false

/-- Models `chat_endpoint` (`real_backend_fixed.py` lines 284-345), as the
ordered list of events it broadcasts for one request. When auto-routing
is requested it broadcasts `agent_selection`, then
`agent_status(thinking)`, then `agent_response` carrying the
`get_llm_response` payload; otherwise the selection event is skipped.
Every callee in the `try` body is total (the selector is pure,
`broadcast_to_clients` and `get_llm_response` catch internally), so the
`except` branch that would broadcast `agent_error` is unreachable for
collaborator failures — those surface inside the `agent_response`
payload. -/
def chat_endpoint (chat : ChatMessage) (llmOutcome : Except String String) :
    List BroadcastEvent :=
  if chat.auto_select && (chat.agent_type == "auto") then
    let sel := select_best_agent chat.message (3 / 10)
    [BroadcastEvent.agent_selection sel.1 sel.2.1,
     BroadcastEvent.agent_status sel.1 "thinking" true,
     BroadcastEvent.agent_response (get_llm_response llmOutcome sel.1)]
  else
    [BroadcastEvent.agent_status chat.agent_type "thinking" false,
     BroadcastEvent.agent_response (get_llm_response llmOutcome chat.agent_type)]

/-- The observable steps of `websocket_endpoint` in
`real_backend_fixed.py` (lines 231-282), in program order. -/
inductive WSAction where
  | acceptConnection
  | appendClient
  | sendConnectionEstablished
  | startHeartbeatTask
  | startMetricsTask
  | runReadLoop
  | logNormalDisconnect
  | logErrorExit (e : String)
  | cancelHeartbeatTask
  | cancelMetricsTask
  | removeFromConnectedClients
deriving DecidableEq

/-- How the read loop of `websocket_endpoint` ends: a normal
`WebSocketDisconnect` (line 271) or any other transport error
(line 273). -/
inductive WSExit where
  | clientDisconnect
  | transportError (e : String)

/-- The action trace of `websocket_endpoint` (`real_backend_fixed.py`
lines 231-282) for a session whose read loop ends with `ex`: setup
(lines 233-247), the read loop, the matching `except` branch, then the
`finally` block (lines 275-282), which on every path cancels the
heartbeat task, cancels the metrics task, and only then removes the
session from `connected_clients`. -/
def websocket_endpoint_trace (ex : WSExit) : List WSAction :=
  [WSAction.acceptConnection, WSAction.appendClient,
   WSAction.sendConnectionEstablished, WSAction.startHeartbeatTask,
   WSAction.startMetricsTask, WSAction.runReadLoop]
  ++ (match ex with
      | WSExit.clientDisconnect => [WSAction.logNormalDisconnect]
      | WSExit.transportError e => [WSAction.logErrorExit e])
  ++ [WSAction.cancelHeartbeatTask, WSAction.cancelMetricsTask,
      WSAction.removeFromConnectedClients]

/-! ## Helper lemmas about the router -/

lemma scoreLoop_go (task_lower : String) (keywords : List String) (a : ℚ) (k : ℕ) :
    keywords.foldl
      (fun acc keyword =>
        if strContains task_lower keyword then
          (acc.1 + (if keyword = pyStrip task_lower then 2 else 1), acc.2 + 1)
        else acc) (a, k)
    = (a + (keywords.map (fun keyword =>
          if strContains task_lower keyword then
            (if keyword = pyStrip task_lower then (2 : ℚ) else 1) else 0)).sum,
       k + keywords.countP (fun keyword => strContains task_lower keyword)) := by
  induction keywords generalizing a k with
  | nil => simp
  | cons kw kws ih =>
    simp only [List.foldl_cons, List.map_cons, List.sum_cons, List.countP_cons]
    by_cases h : strContains task_lower kw
    · rw [if_pos h, ih, if_pos h, Prod.mk.injEq]
      constructor
      · ring
      · simp [h] <;> omega
    · rw [if_neg h, ih, if_neg h, Prod.mk.injEq]
      constructor
      · ring
      · simp [h] <;> omega

lemma scoreLoop_eq (task_lower : String) (keywords : List String) :
    scoreLoop task_lower keywords
    = ((keywords.map (fun keyword =>
          if strContains task_lower keyword then
            (if keyword = pyStrip task_lower then (2 : ℚ) else 1) else 0)).sum,
       keywords.countP (fun keyword => strContains task_lower keyword)) := by
  unfold scoreLoop
  rw [scoreLoop_go, zero_add, zero_add]

lemma rawScore_eq_spec (agent : AgentCapability) (task : String) :
    rawScore agent task = specRawScore agent task := by
  simp only [rawScore, specRawScore, scoreLoop_eq]

lemma rawScore_nonneg (agent : AgentCapability) (task : String) :
    0 ≤ rawScore agent task := by
  rw [rawScore_eq_spec]
  unfold specRawScore
  have hbase : 0 ≤ (agent.keywords.map (fun keyword =>
      if strContains (pyLower task) keyword then
        (if keyword = pyStrip (pyLower task) then (2 : ℚ) else 1) else 0)).sum := by
    apply List.sum_nonneg
    intro x hx
    obtain ⟨kw, _, rfl⟩ := List.mem_map.mp hx
    split_ifs <;> norm_num
  have hw : 0 ≤ (agent.keywords.map (fun keyword =>
      if strContains (pyLower task) keyword then
        (if keyword = pyStrip (pyLower task) then (2 : ℚ) else 1) else 0)).sum
        * (agent.priority_score : ℚ) :=
    mul_nonneg hbase (Nat.cast_nonneg _)
  simp only []
  split_ifs with hk
  · apply mul_nonneg hw
    have : (2 : ℚ) ≤ (agent.keywords.countP
        (fun keyword => strContains (pyLower task) keyword) : ℚ) := by
      exact_mod_cast hk
    nlinarith
  · exact hw

lemma rawScore_pos (agent : AgentCapability) (task : String)
    (hp : 0 < agent.priority_score) (kw : String) (hkw : kw ∈ agent.keywords)
    (hmatch : strContains (pyLower task) kw = true) :
    0 < rawScore agent task := by
  rw [rawScore_eq_spec]
  unfold specRawScore
  have hbase : (1 : ℚ) ≤ (agent.keywords.map (fun keyword =>
      if strContains (pyLower task) keyword then
        (if keyword = pyStrip (pyLower task) then (2 : ℚ) else 1) else 0)).sum := by
    have hterm : (1 : ℚ) ≤ (if strContains (pyLower task) kw then
        (if kw = pyStrip (pyLower task) then (2 : ℚ) else 1) else 0) := by
      rw [hmatch, if_pos rfl]
      split_ifs <;> norm_num
    calc (1 : ℚ) ≤ _ := hterm
      _ ≤ _ := by
        apply List.single_le_sum _ _ (List.mem_map.mpr ⟨kw, hkw, rfl⟩)
        intro x hx
        obtain ⟨kw2, _, rfl⟩ := List.mem_map.mp hx
        split_ifs <;> norm_num
  have hw : 0 < (agent.keywords.map (fun keyword =>
      if strContains (pyLower task) keyword then
        (if keyword = pyStrip (pyLower task) then (2 : ℚ) else 1) else 0)).sum
        * (agent.priority_score : ℚ) := by
    apply mul_pos (by linarith)
    exact_mod_cast hp
  simp only []
  split_ifs with hk
  · apply mul_pos hw
    have : (2 : ℚ) ≤ (agent.keywords.countP
        (fun keyword => strContains (pyLower task) keyword) : ℚ) := by
      exact_mod_cast hk
    nlinarith
  · exact hw

lemma rawScore_eq_zero (agent : AgentCapability) (task : String)
    (h : ∀ kw ∈ agent.keywords, strContains (pyLower task) kw = false) :
    rawScore agent task = 0 := by
  rw [rawScore_eq_spec]
  unfold specRawScore
  have hbase : (agent.keywords.map (fun keyword =>
      if strContains (pyLower task) keyword then
        (if keyword = pyStrip (pyLower task) then (2 : ℚ) else 1) else 0)).sum = 0 := by
    apply List.sum_eq_zero
    intro x hx
    obtain ⟨kw, hkw, rfl⟩ := List.mem_map.mp hx
    rw [h kw hkw]
    simp
  have hcount : agent.keywords.countP
      (fun keyword => strContains (pyLower task) keyword) = 0 := by
    rw [List.countP_eq_zero]
    intro kw hkw
    simp [h kw hkw]
  simp [hbase, hcount]

lemma foldl_max_le (xs : List ℚ) (x : ℚ) :
    x ≤ xs.foldl max x ∧ ∀ y ∈ xs, y ≤ xs.foldl max x := by
  induction xs generalizing x with
  | nil => simp
  | cons a as ih =>
    simp only [List.foldl_cons, List.mem_cons]
    refine ⟨le_trans (le_max_left x a) (ih (max x a)).1, ?_⟩
    rintro y (rfl | hy)
    · exact le_trans (le_max_right x y) (ih (max x y)).1
    · exact (ih (max x a)).2 y hy

lemma foldl_max_mem (xs : List ℚ) (x : ℚ) :
    xs.foldl max x = x ∨ xs.foldl max x ∈ xs := by
  induction xs generalizing x with
  | nil => simp
  | cons a as ih =>
    simp only [List.foldl_cons, List.mem_cons]
    rcases ih (max x a) with h | h
    · rcases le_total x a with hxa | hax
      · right; left; rw [h, max_eq_right hxa]
      · left; rw [h, max_eq_left hax]
    · right; right; exact h

lemma le_valuesMax (x : ℚ) (xs : List ℚ) :
    ∀ y ∈ x :: xs, y ≤ valuesMax (x :: xs) := by
  intro y hy
  rcases List.mem_cons.mp hy with rfl | hy
  · exact (foldl_max_le xs y).1
  · exact (foldl_max_le xs x).2 y hy

lemma valuesMax_mem (x : ℚ) (xs : List ℚ) : valuesMax (x :: xs) ∈ x :: xs := by
  rcases foldl_max_mem xs x with h | h
  · rw [valuesMax, h]; exact List.mem_cons_self x xs
  · exact List.mem_cons_of_mem x h

lemma argmaxFirst_go_mem (xs : List (String × ℚ)) (b : String × ℚ) :
    xs.foldl (fun best p => if best.2 < p.2 then p else best) b = b ∨
    xs.foldl (fun best p => if best.2 < p.2 then p else best) b ∈ xs := by
  induction xs generalizing b with
  | nil => simp
  | cons a as ih =>
    simp only [List.foldl_cons, List.mem_cons]
    by_cases h : b.2 < a.2
    · rw [if_pos h]
      rcases ih a with h2 | h2
      · right; left; exact h2
      · right; right; exact h2
    · rw [if_neg h]
      rcases ih b with h2 | h2
      · left; exact h2
      · right; right; exact h2

lemma argmaxFirst_go_ge (xs : List (String × ℚ)) (b : String × ℚ) :
    b.2 ≤ (xs.foldl (fun best p => if best.2 < p.2 then p else best) b).2 ∧
    ∀ p ∈ xs, p.2 ≤ (xs.foldl (fun best p => if best.2 < p.2 then p else best) b).2 := by
  induction xs generalizing b with
  | nil => simp
  | cons a as ih =>
    simp only [List.foldl_cons, List.mem_cons]
    by_cases h : b.2 < a.2
    · rw [if_pos h]
      refine ⟨le_trans (le_of_lt h) (ih a).1, ?_⟩
      rintro p (rfl | hp)
      · exact (ih p).1
      · exact (ih a).2 p hp
    · rw [if_neg h]
      refine ⟨(ih b).1, ?_⟩
      rintro p (rfl | hp)
      · exact le_trans (le_of_not_lt h) (ih b).1
      · exact (ih b).2 p hp

lemma argmaxFirst_mem (x : String × ℚ) (xs : List (String × ℚ)) :
    argmaxFirst (x :: xs) ∈ x :: xs := by
  rcases argmaxFirst_go_mem xs x with h | h
  · rw [argmaxFirst, h]; exact List.mem_cons_self x xs
  · exact List.mem_cons_of_mem x h

lemma argmaxFirst_ge (x : String × ℚ) (xs : List (String × ℚ)) :
    ∀ p ∈ x :: xs, p.2 ≤ (argmaxFirst (x :: xs)).2 := by
  intro p hp
  rcases List.mem_cons.mp hp with rfl | hp
  · exact (argmaxFirst_go_ge xs p).1
  · exact (argmaxFirst_go_ge xs x).2 p hp

lemma rawScores_names (task : String) :
    (rawScores task).map Prod.fst = ["manus", "browser", "data", "swe"] := rfl

lemma analyze_names (task : String) :
    (analyze_task task).map Prod.fst = ["manus", "browser", "data", "swe"] := by
  simp only [analyze_task]
  by_cases h : 0 < valuesMax ((rawScores task).map Prod.snd)
  · rw [if_pos h, List.map_map]
    exact rawScores_names task
  · rw [if_neg h]
    exact rawScores_names task

lemma analyze_ne_nil (task : String) : analyze_task task ≠ [] := by
  intro h
  have := analyze_names task
  rw [h] at this
  simp at this

lemma rawScores_snd_nonneg (task : String) :
    ∀ q ∈ rawScores task, 0 ≤ q.2 := by
  intro q hq
  obtain ⟨a, _, rfl⟩ := List.mem_map.mp hq
  exact rawScore_nonneg a.2 task

lemma rawScores_shape (task : String) :
    (rawScores task).map Prod.snd
    = rawScore manusCapability task :: [rawScore browserCapability task,
        rawScore dataCapability task, rawScore sweCapability task] := rfl

lemma rawScores_le_max (task : String) :
    ∀ q ∈ rawScores task, q.2 ≤ valuesMax ((rawScores task).map Prod.snd) := by
  intro q hq
  rw [rawScores_shape]
  exact le_valuesMax _ _ _ (rawScores_shape task ▸ List.mem_map_of_mem Prod.snd hq)

lemma rawScores_max_attained (task : String) :
    ∃ q ∈ rawScores task, q.2 = valuesMax ((rawScores task).map Prod.snd) := by
  have h := valuesMax_mem (rawScore manusCapability task)
    [rawScore browserCapability task, rawScore dataCapability task,
     rawScore sweCapability task]
  rw [← rawScores_shape] at h
  rw [rawScores_shape]
  obtain ⟨q, hq, hq2⟩ := List.mem_map.mp h
  exact ⟨q, hq, hq2⟩

lemma analyze_task_all_zero (task : String)
    (hzero : ∀ q ∈ rawScores task, q.2 = 0) :
    ∀ p ∈ analyze_task task, p.2 = 0 := by
  have hM : valuesMax ((rawScores task).map Prod.snd) = 0 := by
    obtain ⟨q, hq, hq2⟩ := rawScores_max_attained task
    rw [← hq2, hzero q hq]
  have hunfold : analyze_task task = rawScores task := by
    simp only [analyze_task, hM]
    norm_num
  rw [hunfold]
  exact hzero

lemma agents_priority_pos : ∀ pr ∈ agentsList, 0 < pr.2.priority_score := by
  decide

/-! ## Claim theorems for the router -/

/-- C1: for every input text and every handler profile, the raw score
computed by `analyze_task` (that is, each entry of `rawScores`) equals the
sum over the profile's keywords occurring as substrings of the lower-cased
input of +2.0 for a keyword equal to the entire trimmed lower-cased input
and +1.0 otherwise, multiplied by the profile's priority weight, then by
`1 + 0.2 × (matchCount − 1)` exactly when more than one keyword matched. -/
theorem raw_score_matches_spec_formula (task : String) :
    (∀ agent : AgentCapability, rawScore agent task = specRawScore agent task) ∧
    rawScores task = agentsList.map (fun p => (p.1, specRawScore p.2 task)) := by
  refine ⟨fun agent => rawScore_eq_spec agent task, ?_⟩
  unfold rawScores
  exact List.map_congr_left (fun p _ => by rw [rawScore_eq_spec])

/-- C3: every confidence returned by `analyze_task` lies in [0,1]; if some
raw score is positive (in particular whenever any catalog keyword occurs
in the lower-cased input) then some confidence equals exactly 1; and if
all raw scores are zero then every confidence is 0. -/
theorem analyze_task_normalization_invariant (task : String) :
    (∀ p ∈ analyze_task task, 0 ≤ p.2 ∧ p.2 ≤ 1) ∧
    ((∃ q ∈ rawScores task, 0 < q.2) → ∃ p ∈ analyze_task task, p.2 = 1) ∧
    ((∀ q ∈ rawScores task, q.2 = 0) → ∀ p ∈ analyze_task task, p.2 = 0) ∧
    ((∃ pr ∈ agentsList, ∃ kw ∈ pr.2.keywords,
        strContains (pyLower task) kw = true) →
      ∃ p ∈ analyze_task task, p.2 = 1) := by
  set M := valuesMax ((rawScores task).map Prod.snd) with hM
  have hub : ∀ q ∈ rawScores task, q.2 ≤ M := rawScores_le_max task
  have hMmem : ∃ q ∈ rawScores task, q.2 = M := rawScores_max_attained task
  by_cases hpos : 0 < M
  · have hunfold : analyze_task task
        = (rawScores task).map (fun p => (p.1, p.2 / M)) := by
      simp only [analyze_task, ← hM, if_pos hpos]
    have hone : ∃ p ∈ analyze_task task, p.2 = 1 := by
      obtain ⟨q, hq, hq2⟩ := hMmem
      refine ⟨(q.1, q.2 / M), ?_, ?_⟩
      · rw [hunfold]; exact List.mem_map_of_mem _ hq
      · simp [hq2, div_self (ne_of_gt hpos)]
    refine ⟨?_, fun _ => hone, ?_, fun _ => hone⟩
    · intro p hp
      rw [hunfold] at hp
      obtain ⟨q, hq, rfl⟩ := List.mem_map.mp hp
      constructor
      · exact div_nonneg (rawScores_snd_nonneg task q hq) (le_of_lt hpos)
      · exact (div_le_one hpos).mpr (hub q hq)
    · intro hzero
      obtain ⟨q, hq, hq2⟩ := hMmem
      rw [hzero q hq] at hq2
      rw [← hq2] at hpos
      exact absurd hpos (lt_irrefl 0)
  · have hzero : ∀ q ∈ rawScores task, q.2 = 0 := by
      intro q hq
      exact le_antisymm (le_trans (hub q hq) (le_of_not_lt hpos))
        (rawScores_snd_nonneg task q hq)
    have hunfold : analyze_task task = rawScores task := by
      simp only [analyze_task, ← hM, if_neg hpos]
    have hcontra : ¬ ∃ q ∈ rawScores task, 0 < q.2 := by
      rintro ⟨q, hq, hq2⟩
      rw [hzero q hq] at hq2
      exact absurd hq2 (lt_irrefl 0)
    refine ⟨?_, fun h => absurd h hcontra, ?_, ?_⟩
    · intro p hp
      rw [hunfold] at hp
      rw [hzero p hp]
      norm_num
    · intro _ p hp
      rw [hunfold] at hp
      exact hzero p hp
    · rintro ⟨pr, hpr, kw, hkw, hmatch⟩
      exfalso
      apply hcontra
      refine ⟨(pr.1, rawScore pr.2 task), List.mem_map_of_mem _ hpr, ?_⟩
      exact rawScore_pos pr.2 task (agents_priority_pos pr hpr) kw hkw hmatch

/-- Witness for C3 at the input `"data"`, where the `"data"` profile's
keyword `"data"` matches: bounds hold and some confidence is exactly 1. -/
theorem analyze_task_invariant_witness :
    (∀ p ∈ analyze_task "data", 0 ≤ p.2 ∧ p.2 ≤ 1) ∧
    ∃ p ∈ analyze_task "data", p.2 = 1 :=
  ⟨(analyze_task_normalization_invariant "data").1,
   (analyze_task_normalization_invariant "data").2.2.2
     ⟨("data", dataCapability), by decide, "data", by decide, by decide⟩⟩

/-- C2: whenever every normalized confidence is strictly below the
threshold (equivalently, the maximum is), `select_best_agent` returns the
default identifier `"manus"`, but the reported confidence is the real
computed maximum of the distribution (a member of it and an upper bound
for it) and the returned distribution is `analyze_task`'s, unchanged. -/
theorem low_confidence_returns_default_with_real_confidence (task : String)
    (threshold : ℚ) (h : ∀ p ∈ analyze_task task, p.2 < threshold) :
    ∃ c, select_best_agent task threshold = ("manus", c, analyze_task task) ∧
      (∃ p ∈ analyze_task task, p.2 = c) ∧
      (∀ p ∈ analyze_task task, p.2 ≤ c) := by
  obtain ⟨x, xs, hx⟩ := List.exists_cons_of_ne_nil (analyze_ne_nil task)
  have hmem : argmaxFirst (analyze_task task) ∈ analyze_task task := by
    rw [hx]; exact argmaxFirst_mem x xs
  have hge : ∀ p ∈ analyze_task task, p.2 ≤ (argmaxFirst (analyze_task task)).2 := by
    rw [hx]; exact argmaxFirst_ge x xs
  have hlt : (argmaxFirst (analyze_task task)).2 < threshold :=
    h _ hmem
  refine ⟨(argmaxFirst (analyze_task task)).2, ?_, ⟨_, hmem, rfl⟩, hge⟩
  simp only [select_best_agent, if_pos hlt]

lemma empty_input_no_match :
    ∀ pr ∈ agentsList, ∀ kw ∈ pr.2.keywords,
      strContains (pyLower "") kw = false := by decide

lemma analyze_empty_zero : ∀ p ∈ analyze_task "", p.2 = 0 := by
  apply analyze_task_all_zero
  intro q hq
  obtain ⟨pr, hpr, rfl⟩ := List.mem_map.mp hq
  exact rawScore_eq_zero pr.2 "" (empty_input_no_match pr hpr)

/-- Witness for C2 at the empty input with the default threshold 0.3:
all confidences are 0 there, so the override fires. -/
theorem low_confidence_default_witness :
    (∀ p ∈ analyze_task "", p.2 < 3 / 10) ∧
    ∃ c, select_best_agent "" (3 / 10) = ("manus", c, analyze_task "") ∧
      (∃ p ∈ analyze_task "", p.2 = c) ∧
      (∀ p ∈ analyze_task "", p.2 ≤ c) :=
  have h : ∀ p ∈ analyze_task "", p.2 < 3 / 10 := fun p hp => by
    rw [analyze_empty_zero p hp]; norm_num
  ⟨h, low_confidence_returns_default_with_real_confidence "" (3 / 10) h⟩

/-- C10: on an input in which no catalog keyword occurs (for example the
empty string, as in the witness), `analyze_task` maps every handler to 0
and `select_best_agent` with the default threshold 0.3 falls back to
`("manus", 0)` with the zero distribution returned unchanged. -/
theorem no_keyword_match_total_fallback (task : String)
    (h : ∀ pr ∈ agentsList, ∀ kw ∈ pr.2.keywords,
        strContains (pyLower task) kw = false) :
    (∀ p ∈ analyze_task task, p.2 = 0) ∧
    select_best_agent task (3 / 10) = ("manus", 0, analyze_task task) := by
  have hraw0 : ∀ q ∈ rawScores task, q.2 = 0 := by
    intro q hq
    obtain ⟨pr, hpr, rfl⟩ := List.mem_map.mp hq
    exact rawScore_eq_zero pr.2 task (h pr hpr)
  have hzero : ∀ p ∈ analyze_task task, p.2 = 0 :=
    analyze_task_all_zero task hraw0
  refine ⟨hzero, ?_⟩
  obtain ⟨x, xs, hx⟩ := List.exists_cons_of_ne_nil (analyze_ne_nil task)
  have hmem : argmaxFirst (analyze_task task) ∈ analyze_task task := by
    rw [hx]; exact argmaxFirst_mem x xs
  have hbest0 : (argmaxFirst (analyze_task task)).2 = 0 := hzero _ hmem
  simp only [select_best_agent, hbest0]
  norm_num

/-- Witness for C10 at the empty input. -/
theorem no_keyword_match_fallback_witness :
    (∀ pr ∈ agentsList, ∀ kw ∈ pr.2.keywords,
        strContains (pyLower "") kw = false) ∧
    (∀ p ∈ analyze_task "", p.2 = 0) ∧
    select_best_agent "" (3 / 10) = ("manus", 0, analyze_task "") :=
  ⟨by decide, no_keyword_match_total_fallback "" (by decide)⟩

/-! ## Stability of the suggestion sort (C4) -/

lemma orderedInsert_pairwise_stable (s : (String × ℚ) → (String × ℚ) → Prop)
    (x : String × ℚ) (l : List (String × ℚ))
    (hq : l.Pairwise (fun a b => a.2 = b.2 → s a b))
    (hx : ∀ y ∈ l, s x y) :
    (List.orderedInsert sortRel x l).Pairwise (fun a b => a.2 = b.2 → s a b) := by
  induction l with
  | nil => simp
  | cons b l ih =>
    rw [List.orderedInsert]
    split_ifs with hle
    · refine List.pairwise_cons.mpr ⟨?_, hq⟩
      intro z hz _
      exact hx z hz
    · rcases List.pairwise_cons.mp hq with ⟨hb, hq2⟩
      refine List.pairwise_cons.mpr
        ⟨?_, ih hq2 (fun y hy => hx y (List.mem_cons_of_mem _ hy))⟩
      intro z hz heq
      rcases (List.mem_orderedInsert sortRel).mp hz with rfl | hzl
      · exfalso
        exact hle (le_of_eq heq)
      · exact hb z hzl heq

lemma insertionSort_pairwise_stable (s : (String × ℚ) → (String × ℚ) → Prop)
    (l : List (String × ℚ)) (hl : l.Pairwise s) :
    (List.insertionSort sortRel l).Pairwise (fun a b => a.2 = b.2 → s a b) := by
  induction l with
  | nil => simp
  | cons x l ih =>
    rw [List.insertionSort]
    rcases List.pairwise_cons.mp hl with ⟨hx, hl2⟩
    exact orderedInsert_pairwise_stable s x _ (ih hl2)
      (fun y hy => hx y ((List.mem_insertionSort sortRel).mp hy))

lemma analyze_pairwise_catalog (task : String) :
    (analyze_task task).Pairwise
      (fun a b => catalogIndex a.1 < catalogIndex b.1) := by
  have h : ((analyze_task task).map Prod.fst).Pairwise
      (fun x y => catalogIndex x < catalogIndex y) := by
    rw [analyze_names]
    decide
  rw [List.pairwise_map] at h
  exact h

/-- C4: for every input text and every bound `n`, `get_agent_suggestions`
returns at most `n` triples, in non-increasing order of confidence, ties
broken stably by the catalog's declared iteration order, and each triple
carries the catalog description of its handler. -/
theorem suggestions_sorted_stable_with_descriptions (task : String) (n : ℕ) :
    (get_agent_suggestions task n).length ≤ n ∧
    (get_agent_suggestions task n).Pairwise (fun a b => b.2.1 ≤ a.2.1) ∧
    (get_agent_suggestions task n).Pairwise
      (fun a b => a.2.1 = b.2.1 → catalogIndex a.1 < catalogIndex b.1) ∧
    (∀ t ∈ get_agent_suggestions task n, t.2.2 = agentDescription t.1) := by
  have hsorted : (List.insertionSort sortRel (analyze_task task)).Pairwise sortRel :=
    List.sorted_insertionSort sortRel (analyze_task task)
  have hstable : (List.insertionSort sortRel (analyze_task task)).Pairwise
      (fun a b => a.2 = b.2 → catalogIndex a.1 < catalogIndex b.1) :=
    insertionSort_pairwise_stable _ _ (analyze_pairwise_catalog task)
  have htake := List.take_sublist n (List.insertionSort sortRel (analyze_task task))
  refine ⟨?_, ?_, ?_, ?_⟩
  · simp only [get_agent_suggestions, List.length_map, List.length_take]
    exact min_le_left _ _
  · simp only [get_agent_suggestions, List.pairwise_map]
    exact (hsorted.sublist htake)
  · simp only [get_agent_suggestions, List.pairwise_map]
    exact (hstable.sublist htake)
  · intro t ht
    simp only [get_agent_suggestions, List.mem_map] at ht
    obtain ⟨p, _, rfl⟩ := ht
    rfl

/-! ## Helper lemmas about the connection hub -/

lemma contains_iff_mem (cs : List WSClient) (c : WSClient) :
    cs.contains c = true ↔ c ∈ cs := by
  simp [List.contains]

lemma erase_step_filter (cs : List WSClient) (c : WSClient) (h : cs.Nodup) :
    (if cs.contains c then cs.erase c else cs) = cs.filter (fun x => x != c) := by
  split_ifs with hc
  · exact h.erase_eq_filter c
  · symm
    apply List.filter_eq_self.mpr
    intro a ha
    have hne : a ≠ c := by
      rintro rfl
      exact hc ((contains_iff_mem cs a).mpr ha)
    simpa using hne

lemma foldl_erase_eq (D : List WSClient) :
    ∀ cs : List WSClient, cs.Nodup →
      D.foldl (fun acc c => if acc.contains c then acc.erase c else acc) cs
        = cs.filter (fun x => !(D.contains x)) := by
  induction D with
  | nil =>
    intro cs _
    simp
  | cons d D ih =>
    intro cs hcs
    rw [List.foldl_cons, erase_step_filter cs d hcs,
      ih _ (hcs.filter _), List.filter_filter]
    apply List.filter_congr
    intro a _
    simp only [List.contains_cons]
    rw [Bool.or_comm]
    rw [Bool.not_or]
    rfl

/-! ## Claim theorems for the connection hub -/

/-- C5: `broadcast_to_clients` attempts one `safe_send_to_client` per
registered session, enumerating the original session list completely (so
every session whose transport can deliver receives the event, even after
an earlier failure, and no removal happens during the iteration); each
attempt's outcome is the send's own outcome, never an exception (the
function is total); and only afterwards are exactly the failing sessions
removed from the live set. -/
theorem broadcast_delivers_and_removes_after (clients : List WSClient)
    (message : String) (h : clients.Nodup) :
    ((broadcast_to_clients clients message).1.map Prod.fst = clients) ∧
    (∀ p ∈ (broadcast_to_clients clients message).1,
        p.2 = safe_send_to_client p.1 message) ∧
    ((broadcast_to_clients clients message).2
      = clients.filter (fun c => safe_send_to_client c message)) := by
  refine ⟨?_, ?_, ?_⟩
  · simp only [broadcast_to_clients, List.map_map]
    exact List.map_id clients
  · intro p hp
    simp only [broadcast_to_clients, List.mem_map] at hp
    obtain ⟨c, _, rfl⟩ := hp
    rfl
  · simp only [broadcast_to_clients, List.filter_map, List.map_map]
    have hid : (Prod.fst ∘ fun c => (c, safe_send_to_client c message))
        = fun c : WSClient => c := rfl
    have hpred : ((fun p : WSClient × Bool => !p.2)
          ∘ fun c => (c, safe_send_to_client c message))
        = fun c => !(safe_send_to_client c message) := rfl
    rw [hid, List.map_id', hpred, foldl_erase_eq _ clients h]
    apply List.filter_congr
    intro a ha
    cases hs : safe_send_to_client a message
    · have hmem : a ∈ List.filter
          (fun c => !(safe_send_to_client c message)) clients := by
        rw [List.mem_filter]
        refine ⟨ha, ?_⟩
        rw [hs]
        rfl
      rw [(contains_iff_mem _ _).mpr hmem]
      rfl
    · have hnc : (List.filter
          (fun c => !(safe_send_to_client c message)) clients).contains a
            = false := by
        rw [Bool.eq_false_iff]
        intro hc
        have hm := (contains_iff_mem _ _).mp hc
        rw [List.mem_filter, hs] at hm
        simp at hm
      rw [hnc]
      rfl

/-- Witness for C5: three sessions, the second with a closed transport;
every session is attempted, session 2 fails and is removed afterwards,
sessions 1 and 3 receive the event and stay. -/
theorem broadcast_three_sessions_witness :
    ([⟨1, true⟩, ⟨2, false⟩, ⟨3, true⟩] : List WSClient).Nodup ∧
    ((broadcast_to_clients [⟨1, true⟩, ⟨2, false⟩, ⟨3, true⟩] "ev").1.map Prod.fst
        = [⟨1, true⟩, ⟨2, false⟩, ⟨3, true⟩]) ∧
    (∀ p ∈ (broadcast_to_clients [⟨1, true⟩, ⟨2, false⟩, ⟨3, true⟩] "ev").1,
        p.2 = safe_send_to_client p.1 "ev") ∧
    ((broadcast_to_clients [⟨1, true⟩, ⟨2, false⟩, ⟨3, true⟩] "ev").2
      = ([⟨1, true⟩, ⟨2, false⟩, ⟨3, true⟩] : List WSClient).filter
          (fun c => safe_send_to_client c "ev")) :=
  ⟨by decide, broadcast_delivers_and_removes_after
    [⟨1, true⟩, ⟨2, false⟩, ⟨3, true⟩] "ev" (by decide)⟩

/-- C6: `ConnectionManager.disconnect` is idempotent (a second disconnect
of the same session is a no-op), disconnecting a never-registered session
leaves the set unchanged, and a send attempt on a session whose transport
is closed (as a removed/disconnected session's is) returns `false`
instead of raising — all three operations are total functions. -/
theorem disconnect_idempotent_and_send_safe (conns : List WSClient)
    (ws : WSClient) (h : conns.Nodup) :
    ConnectionManager.disconnect (ConnectionManager.disconnect conns ws) ws
      = ConnectionManager.disconnect conns ws ∧
    (ws ∉ conns → ConnectionManager.disconnect conns ws = conns) ∧
    (∀ message, ws.alive = false → safe_send_to_client ws message = false) := by
  have hnotmem : ∀ cs : List WSClient, ws ∉ cs →
      ConnectionManager.disconnect cs ws = cs := by
    intro cs hcs
    unfold ConnectionManager.disconnect
    rw [if_neg]
    intro hc
    exact hcs ((contains_iff_mem cs ws).mp hc)
  refine ⟨?_, hnotmem conns, ?_⟩
  · by_cases hmem : ws ∈ conns
    · apply hnotmem
      unfold ConnectionManager.disconnect
      rw [if_pos ((contains_iff_mem conns ws).mpr hmem)]
      rw [h.erase_eq_filter]
      intro hin
      rcases List.mem_filter.mp hin with ⟨_, hne⟩
      simp at hne
    · rw [hnotmem conns hmem]
      exact hnotmem conns hmem
  · intro message halive
    unfold safe_send_to_client send_text
    rw [halive]
    rfl

/-- Witness for C6: a two-session set, disconnecting a closed session
twice and sending to it. -/
theorem disconnect_idempotent_witness :
    ([⟨1, true⟩, ⟨2, false⟩] : List WSClient).Nodup ∧
    (ConnectionManager.disconnect
        (ConnectionManager.disconnect [⟨1, true⟩, ⟨2, false⟩] ⟨2, false⟩) ⟨2, false⟩
      = ConnectionManager.disconnect [⟨1, true⟩, ⟨2, false⟩] ⟨2, false⟩ ∧
    ((⟨2, false⟩ : WSClient) ∉ ([⟨1, true⟩, ⟨2, false⟩] : List WSClient) →
        ConnectionManager.disconnect [⟨1, true⟩, ⟨2, false⟩] ⟨2, false⟩
          = [⟨1, true⟩, ⟨2, false⟩]) ∧
    (∀ message, (⟨2, false⟩ : WSClient).alive = false →
        safe_send_to_client ⟨2, false⟩ message = false)) :=
  ⟨by decide, disconnect_idempotent_and_send_safe
    [⟨1, true⟩, ⟨2, false⟩] ⟨2, false⟩ (by decide)⟩

/-! ## The read loop on unrecognized and malformed payloads (C7) -/

/-- C7 counterexample: for a payload on which the JSON layer raises
(`parseMessage` returns `none`, as `json.loads` does on input that is not
well-formed JSON), the read loop does not ignore the message and continue
— it terminates the session (the exception is caught outside the loop and
the session is disconnected). This refutes the claim that such a message
leaves the session running. -/
theorem malformed_payload_terminates_session :
    websocket_handle_message (fun _ => none) "not valid json"
      = WSLoopOutcome.terminated ∧
    WSLoopOutcome.terminated ≠ WSLoopOutcome.ignored ∧
    WSLoopOutcome.terminated ≠ WSLoopOutcome.reply "pong" := by
  refine ⟨rfl, by decide, by decide⟩

/-- C7 as amended: a message that parses as JSON but whose type is not
the recognized `"ping"` is ignored — not broadcast, not replied to, and
the session continues; but a payload that is not well-formed JSON makes
the read loop terminate the session (caught and turned into a disconnect,
so the hub itself never crashes — the handler is a total function). -/
theorem unrecognized_ignored_malformed_disconnects
    (parseMessage : String → Option (Option String)) (data : String) :
    (∀ t, parseMessage data = some t → t ≠ some "ping" →
        websocket_handle_message parseMessage data = WSLoopOutcome.ignored) ∧
    (parseMessage data = none →
        websocket_handle_message parseMessage data = WSLoopOutcome.terminated) := by
  constructor
  · intro t hp hne
    simp [websocket_handle_message, hp, hne]
  · intro hp
    simp [websocket_handle_message, hp]

/-- Witness for the amended C7: a JSON payload of unrecognized type
`"status_update"` is ignored; a malformed payload terminates. -/
theorem unrecognized_ignored_witness :
    websocket_handle_message (fun _ => some (some "status_update")) "payload"
      = WSLoopOutcome.ignored ∧
    websocket_handle_message (fun _ => none) "payload"
      = WSLoopOutcome.terminated :=
  ⟨(unrecognized_ignored_malformed_disconnects
      (fun _ => some (some "status_update")) "payload").1
        (some "status_update") rfl (by decide),
   (unrecognized_ignored_malformed_disconnects
      (fun _ => none) "payload").2 rfl⟩

/-! ## Concrete evaluation of the router (used for C8) -/

lemma base_sum_eq_counts (tl : String) (kws : List String) :
    (kws.map (fun keyword => if strContains tl keyword then
        (if keyword = pyStrip tl then (2 : ℚ) else 1) else 0)).sum
    = (kws.countP (fun keyword => strContains tl keyword) : ℚ)
      + (kws.countP (fun keyword =>
          strContains tl keyword && (keyword == pyStrip tl)) : ℚ) := by
  induction kws with
  | nil => simp
  | cons kw kws ih =>
    simp only [List.map_cons, List.sum_cons, List.countP_cons, ih]
    by_cases h1 : strContains tl kw = true
    · by_cases h2 : kw = pyStrip tl
      · have hb : (kw == pyStrip tl) = true := beq_iff_eq.mpr h2
        rw [if_pos h1, if_pos h2, h1, hb, Bool.true_and]
        push_cast
        simp only [if_true]
        ring
      · have hb : (kw == pyStrip tl) = false := beq_eq_false_iff_ne.mpr h2
        rw [if_pos h1, if_neg h2, h1, hb, Bool.true_and]
        push_cast
        simp only [if_true]
        ring
    · have h1f : strContains tl kw = false := by simpa using h1
      rw [if_neg h1, h1f, Bool.false_and]
      push_cast
      simp

lemma rawScore_eval (agent : AgentCapability) (task : String) :
    rawScore agent task
    = (if 1 < agent.keywords.countP (fun kw => strContains (pyLower task) kw) then
        ((agent.keywords.countP (fun kw => strContains (pyLower task) kw) : ℚ)
          + (agent.keywords.countP (fun kw =>
              strContains (pyLower task) kw && (kw == pyStrip (pyLower task))) : ℚ))
          * (agent.priority_score : ℚ)
          * (1 + ((agent.keywords.countP
              (fun kw => strContains (pyLower task) kw) : ℚ) - 1) * (2 / 10))
      else
        ((agent.keywords.countP (fun kw => strContains (pyLower task) kw) : ℚ)
          + (agent.keywords.countP (fun kw =>
              strContains (pyLower task) kw && (kw == pyStrip (pyLower task))) : ℚ))
          * (agent.priority_score : ℚ)) := by
  rw [rawScore_eq_spec]
  simp only [specRawScore, base_sum_eq_counts]

lemma rawScore_browser_scrape : rawScore browserCapability "scrape" = 6 := by
  rw [rawScore_eval]
  have h1 : browserCapability.keywords.countP
      (fun kw => strContains (pyLower "scrape") kw) = 1 := by decide
  have h2 : browserCapability.keywords.countP (fun kw =>
      strContains (pyLower "scrape") kw && (kw == pyStrip (pyLower "scrape")))
        = 1 := by decide
  rw [h1, h2]
  norm_num [browserCapability]

lemma rawScores_scrape :
    rawScores "scrape" = [("manus", 0), ("browser", 6), ("data", 0), ("swe", 0)] := by
  have hm : rawScore manusCapability "scrape" = 0 :=
    rawScore_eq_zero _ _ (by decide)
  have hd : rawScore dataCapability "scrape" = 0 :=
    rawScore_eq_zero _ _ (by decide)
  have hs : rawScore sweCapability "scrape" = 0 :=
    rawScore_eq_zero _ _ (by decide)
  simp only [rawScores, agentsList, List.map_cons, List.map_nil]
  rw [hm, hd, hs, rawScore_browser_scrape]

lemma analyze_scrape :
    analyze_task "scrape"
      = [("manus", 0), ("browser", 1), ("data", 0), ("swe", 0)] := by
  simp only [analyze_task, rawScores_scrape, List.map_cons, List.map_nil]
  have hmax : valuesMax [(0 : ℚ), 6, 0, 0] = 6 := by
    simp only [valuesMax, List.foldl_cons, List.foldl_nil]
    rw [max_eq_right (by norm_num : (0 : ℚ) ≤ 6),
        max_eq_left (by norm_num : (0 : ℚ) ≤ 6),
        max_eq_left (by norm_num : (0 : ℚ) ≤ 6)]
  rw [hmax, if_pos (by norm_num : (0 : ℚ) < 6)]
  norm_num

lemma select_scrape :
    select_best_agent "scrape" (3 / 10)
      = ("browser", 1, [("manus", 0), ("browser", 1), ("data", 0), ("swe", 0)]) := by
  simp only [select_best_agent, analyze_scrape]
  have harg : argmaxFirst [("manus", (0 : ℚ)), ("browser", 1), ("data", 0), ("swe", 0)]
      = ("browser", 1) := by
    norm_num [argmaxFirst]
  rw [harg]
  norm_num

/-! ## The request coordinator's event sequence (C8) -/

/-- C8 counterexample: for the auto-routed request `"scrape"` whose
execution collaborator fails (`Except.error "boom"`), `chat_endpoint`
broadcasts no `agent_error` event at all — the failure is delivered as an
`agent_response` event whose payload carries the error flag and message.
This refutes the part of the claim requiring an `agent_error` event when
the execution collaborator fails. -/
theorem collaborator_failure_no_agent_error_event :
    chat_endpoint ⟨"scrape", "auto", true⟩ (Except.error "boom")
      = [BroadcastEvent.agent_selection "browser" 1,
         BroadcastEvent.agent_status "browser" "thinking" true,
         BroadcastEvent.agent_response
           ⟨"Sorry, I encountered an error: " ++ "boom", "browser", [], true⟩] ∧
    (chat_endpoint ⟨"scrape", "auto", true⟩ (Except.error "boom")).all
      (fun ev => !ev.isAgentError) = true := by
  have hc : chat_endpoint ⟨"scrape", "auto", true⟩ (Except.error "boom")
      = [BroadcastEvent.agent_selection "browser" 1,
         BroadcastEvent.agent_status "browser" "thinking" true,
         BroadcastEvent.agent_response
           ⟨"Sorry, I encountered an error: " ++ "boom", "browser", [], true⟩] := by
    simp only [chat_endpoint, select_scrape]
    rfl
  refine ⟨hc, ?_⟩
  rw [hc]
  rfl

/-- C8 as amended: for every auto-routed request, `chat_endpoint`
broadcasts exactly the three events `agent_selection`, then
`agent_status(thinking)`, then `agent_response`, in that fixed order; a
failing execution collaborator is not dropped — its failure is carried
inside the `agent_response` payload (error flag set, payload naming the
selected handler), not as a separate `agent_error` event. -/
theorem chat_events_ordered (chat : ChatMessage)
    (llmOutcome : Except String String)
    (hauto : chat.auto_select = true) (htype : chat.agent_type = "auto") :
    ∃ sel conf,
      chat_endpoint chat llmOutcome =
        [BroadcastEvent.agent_selection sel conf,
         BroadcastEvent.agent_status sel "thinking" true,
         BroadcastEvent.agent_response (get_llm_response llmOutcome sel)] ∧
      (get_llm_response llmOutcome sel).agent = sel ∧
      (∀ e, llmOutcome = Except.error e →
        (get_llm_response llmOutcome sel).error = true ∧
        (get_llm_response llmOutcome sel).response
          = "Sorry, I encountered an error: " ++ e) := by
  have hcond : (chat.auto_select && (chat.agent_type == "auto")) = true := by
    rw [hauto, htype]
    rfl
  refine ⟨(select_best_agent chat.message (3 / 10)).1,
    (select_best_agent chat.message (3 / 10)).2.1, ?_, ?_, ?_⟩
  · simp only [chat_endpoint, hcond, if_true]
  · cases llmOutcome <;> rfl
  · rintro e rfl
    exact ⟨rfl, rfl⟩

/-- Witness for the amended C8 at the request `"scrape"` with a failing
collaborator. -/
theorem chat_events_ordered_witness :
    (⟨"scrape", "auto", true⟩ : ChatMessage).auto_select = true ∧
    ∃ sel conf,
      chat_endpoint ⟨"scrape", "auto", true⟩ (Except.error "boom") =
        [BroadcastEvent.agent_selection sel conf,
         BroadcastEvent.agent_status sel "thinking" true,
         BroadcastEvent.agent_response
           (get_llm_response (Except.error "boom") sel)] ∧
      (get_llm_response (Except.error "boom") sel).agent = sel ∧
      (∀ e, (Except.error "boom" : Except String String) = Except.error e →
        (get_llm_response (Except.error "boom") sel).error = true ∧
        (get_llm_response (Except.error "boom") sel).response
          = "Sorry, I encountered an error: " ++ e) :=
  ⟨rfl, chat_events_ordered ⟨"scrape", "auto", true⟩ (Except.error "boom") rfl rfl⟩

/-! ## Session teardown ordering (C9) -/

/-- C9: on every exit path of the session handler — normal client
disconnect or a transport error in the read loop — the trace ends with
cancelling the heartbeat task, then cancelling the metrics task, and only
then removing the session from the connected-clients set; each of these
cleanup steps happens exactly once, so no teardown path skips the
background-task cleanup and no timer task outlives the removal. -/
theorem teardown_cancels_tasks_before_removal (ex : WSExit) :
    (∃ pre, websocket_endpoint_trace ex
        = pre ++ [WSAction.cancelHeartbeatTask, WSAction.cancelMetricsTask,
                  WSAction.removeFromConnectedClients]) ∧
    (websocket_endpoint_trace ex).count WSAction.removeFromConnectedClients = 1 ∧
    (websocket_endpoint_trace ex).count WSAction.cancelHeartbeatTask = 1 ∧
    (websocket_endpoint_trace ex).count WSAction.cancelMetricsTask = 1 := by
  cases ex with
  | clientDisconnect =>
    refine ⟨⟨[WSAction.acceptConnection, WSAction.appendClient,
      WSAction.sendConnectionEstablished, WSAction.startHeartbeatTask,
      WSAction.startMetricsTask, WSAction.runReadLoop,
      WSAction.logNormalDisconnect], rfl⟩, by decide, by decide, by decide⟩
  | transportError e =>
    refine ⟨⟨[WSAction.acceptConnection, WSAction.appendClient,
      WSAction.sendConnectionEstablished, WSAction.startHeartbeatTask,
      WSAction.startMetricsTask, WSAction.runReadLoop,
      WSAction.logErrorExit e], rfl⟩, ?_, ?_, ?_⟩ <;>
      simp [websocket_endpoint_trace, List.count_append, List.count_cons,
        List.count_nil]

end DyorAI
